import Mathlib

/-!
Verification of the Mag7-7DTE decision core against its specification.

The definitions below are a shallow embedding of the Python sources:
* `src/backend/app/services/risk_management_service_updated.py`
  (position sizing, partial profit-taking ladder, dynamic take-profit),
* `src/backend/app/services/signal_strategies/ensemble_strategy.py`
  (simple and weighted ensemble aggregation),
* `src/backend/app/services/signal_strategies/fundamental_strategies.py`
  (earnings-event strategy).

Machine floats are modelled by exact rationals; Python `int(x)` is
truncation toward zero (`pytrunc`), `math.ceil` is `Int.ceil`.
Database lookups are modelled by passing the looked-up values as inputs.
-/

namespace Mag7

/-- Python `int(x)` applied to a float: truncation toward zero. -/
def pytrunc (q : ℚ) : ℤ :=
  if 0 ≤ q then ⌊q⌋ else ⌈q⌉

/-! ## Position sizer
`RiskManagementService.calculate_position_size` from
`risk_management_service_updated.py`, after the user / portfolio /
instrument lookups succeeded.  The fundamental and correlation
adjustments (computed from DB state by
`calculate_fundamental_adjustment` / `calculate_correlation_adjustment`)
enter as inputs. -/

/-- Inputs of one sizing call (all successfully looked-up state). -/
structure SizingInput where
  maxPortfolioRisk : ℚ      -- user.risk_profile.max_portfolio_risk (percent)
  portfolioValue : ℚ        -- portfolio.total_value
  maxStockAllocation : ℚ    -- user.risk_profile.max_stock_allocation (percent)
  currentAllocation : ℚ     -- sum of current_value over ACTIVE positions in the instrument
  signalConfidence : ℚ
  optionPrice : ℚ
  fundamentalAdjustment : ℚ
  correlationAdjustment : ℚ
  deriving DecidableEq, Repr

/-- Source: `min_position_size = max(33000.0, portfolio_value * 0.33)`. -/
def minPositionSize (i : SizingInput) : ℚ :=
  max 33000 (i.portfolioValue * (33 / 100))

/-- Source: `contract_value = option_price * 100`. -/
def contractValue (i : SizingInput) : ℚ :=
  i.optionPrice * 100

/-- Source: `min_contracts = math.ceil(min_position_size / contract_value)`. -/
def minContracts (i : SizingInput) : ℤ :=
  ⌈minPositionSize i / contractValue i⌉

/-- Confidence-tier scaling of the minimum bet. -/
def maxScaling (i : SizingInput) : ℚ :=
  if i.signalConfidence ≥ 9/10 then 2
  else if i.signalConfidence ≥ 8/10 then 3/2
  else if i.signalConfidence ≥ 7/10 then 5/4
  else 1

/-- Source: `adjusted_risk = portfolio_value * (max_portfolio_risk/100) * (0.5 + confidence)`;
also returned as `max_capital`. -/
def adjustedRisk (i : SizingInput) : ℚ :=
  i.portfolioValue * (i.maxPortfolioRisk / 100) * (1/2 + i.signalConfidence)

/-- Source: `scaled_contracts = min(int(min_contracts * max_scaling), int(max_capital / contract_value))`. -/
def scaledContracts (i : SizingInput) : ℤ :=
  min (pytrunc ((minContracts i : ℚ) * maxScaling i))
      (pytrunc (adjustedRisk i / contractValue i))

/-- Source: `contracts = max(min_contracts, scaled_contracts)` before the allocation check. -/
def baseContracts (i : SizingInput) : ℤ :=
  max (minContracts i) (scaledContracts i)

/-- Source: `available_allocation = portfolio_value * (max_stock_allocation/100) - current_allocation`. -/
def availableAllocation (i : SizingInput) : ℚ :=
  i.portfolioValue * (i.maxStockAllocation / 100) - i.currentAllocation

/-- Source: `if position_value > available_allocation: contracts = int(available_allocation / contract_value)`. -/
def clampedContracts (i : SizingInput) : ℤ :=
  if (baseContracts i : ℚ) * contractValue i > availableAllocation i then
    pytrunc (availableAllocation i / contractValue i)
  else baseContracts i

/-- Source: `if position_value < min_position_size and available_allocation >= min_position_size:
contracts = math.ceil(min_position_size / contract_value)`. -/
def flooredContracts (i : SizingInput) : ℤ :=
  if (clampedContracts i : ℚ) * contractValue i < minPositionSize i ∧
      availableAllocation i ≥ minPositionSize i then
    ⌈minPositionSize i / contractValue i⌉
  else clampedContracts i

/-- Source: `final_contracts = max(min_contracts, int(contracts * fundamental_adjustment * correlation_adjustment))`. -/
def finalContracts (i : SizingInput) : ℤ :=
  max (minContracts i)
      (pytrunc ((flooredContracts i : ℚ) *
        (i.fundamentalAdjustment * i.correlationAdjustment)))

/-- The fields of the returned dict that the properties refer to. -/
structure SizingResult where
  contracts : ℤ
  minContractsOut : ℤ
  positionValue : ℚ
  deriving DecidableEq, Repr

/-- Outcome of a sizing call: either the allocation-exhausted error
return (`contracts = 0`) or a successful result. -/
inductive SizingOutcome where
  | allocationExhausted : SizingOutcome
  | ok : SizingResult → SizingOutcome
  deriving DecidableEq, Repr

/-- Source: `RiskManagementService.calculate_position_size`, success paths after
the three DB lookups; the only error return reachable from there is the
maximum-allocation one. -/
def calculate_position_size (i : SizingInput) : SizingOutcome :=
  if availableAllocation i ≤ 0 then
    SizingOutcome.allocationExhausted
  else
    SizingOutcome.ok
      { contracts := finalContracts i
        minContractsOut := minContracts i
        positionValue := (finalContracts i : ℚ) * contractValue i }

/-! ## Partial profit-taking ladder
`RiskManagementService.implement_partial_profit_taking`.  The ledger is
summarised by the cumulative `percentage_closed` already taken
(`total_pct_taken` in the source); a call either fires one partial
close (`some pct`) or holds (`none`). -/

/-- The `thresholds` table: `(profit_pct, take_pct)` pairs. -/
def ladderThresholds : List (ℚ × ℚ) :=
  [(1/5, 1/4), (7/20, 1/4), (1/2, 1/4)]

/-- Source: `sum(t["take_pct"] for t in thresholds if t["profit_pct"] <= threshold["profit_pct"])`. -/
def targetTotalPct (all : List (ℚ × ℚ)) (profitLevel : ℚ) : ℚ :=
  ((all.filter fun t => t.1 ≤ profitLevel).map Prod.snd).sum

/-- The `for threshold in thresholds` loop body; returns the percentage
closed now, or `none` for the final hold return. -/
def ladderLoop (all : List (ℚ × ℚ)) :
    List (ℚ × ℚ) → ℚ → ℚ → Option ℚ
  | [], _, _ => none
  | t :: rest, totalTaken, profit =>
      if profit ≥ t.1 ∧ totalTaken < targetTotalPct all t.1 then
        if min (targetTotalPct all t.1 - totalTaken) (1 - totalTaken) > 0 then
          some (min (targetTotalPct all t.1 - totalTaken) (1 - totalTaken))
        else ladderLoop all rest totalTaken profit
      else ladderLoop all rest totalTaken profit

/-- Source: `RiskManagementService.implement_partial_profit_taking`, with the
position's ledger summarised by `totalTaken`. -/
def implement_partial_profit_taking (totalTaken profit : ℚ) : Option ℚ :=
  ladderLoop ladderThresholds ladderThresholds totalTaken profit

/-- Cumulative `percentage_closed` after one call (the record appended on
a partial close, nothing on a hold). -/
def ladderStepTotal (totalTaken profit : ℚ) : ℚ :=
  totalTaken + (implement_partial_profit_taking totalTaken profit).getD 0

/-- Cumulative `percentage_closed` after a sequence of calls at the given
profit levels. -/
def ladderRun (start : ℚ) (profits : List ℚ) : ℚ :=
  profits.foldl ladderStepTotal start

/-! ## Dynamic take-profit / trailing stop
`RiskManagementService.calculate_dynamic_take_profit`. -/

/-- The trailing-stop computation from `calculate_dynamic_take_profit`. -/
def trailingStop (entryPrice currentPrice initialStop profit : ℚ) : ℚ :=
  if profit > 3/10 then entryPrice + (currentPrice - entryPrice) * (1/2)
  else if profit > 3/20 then entryPrice + (currentPrice - entryPrice) * (1/4)
  else initialStop

/-- Source: `adjusted_stop_loss = max(initial_stop_loss, trailing_stop)`. -/
def adjustedStopLoss (entryPrice currentPrice initialStop profit : ℚ) : ℚ :=
  max initialStop (trailingStop entryPrice currentPrice initialStop profit)

/-- Source: `risk_reward_ratio` re-tiering in `calculate_dynamic_take_profit`. -/
def riskRewardTier (profit : ℚ) : ℚ :=
  if profit < 3/20 then 3/2
  else if profit < 3/10 then 2
  else 3

/-! ## Signal model (`models/signal.py`) -/

inductive SignalType where
  | longCall | longPut | shortCall | shortPut | callSpread | putSpread
  | ironCondor | butterfly | calendarSpread | diagonalSpread
  deriving DecidableEq, Repr

inductive SignalSource where
  | technical | fundamental | volatility | momentum | earnings
  | sentiment | correlation | ensemble
  deriving DecidableEq, Repr

/-- A candidate signal emitted by a constituent strategy (the fields the
ensemble reads). -/
structure CandidateSignal where
  signalType : SignalType
  signalSource : SignalSource
  confidenceScore : ℚ
  targetPrice : Option ℚ
  stopLoss : Option ℚ
  deriving DecidableEq, Repr

/-- The result of a `find_atm_options` lookup (the fields the ensemble
copies into the combined signal). -/
structure OptionLeg where
  optionId : ℕ
  strikePrice : ℚ
  deriving DecidableEq, Repr

/-- A signal created and saved by an aggregating strategy. -/
structure GeneratedSignal where
  signalType : SignalType
  confidenceScore : ℚ
  targetPrice : ℚ
  stopLoss : ℚ
  optionId : ℕ
  deriving DecidableEq, Repr

/-! ## Ensemble aggregator (`ensemble_strategy.py`)
One evaluation cycle of `EnsembleStrategy.generate_signals` /
`WeightedEnsembleStrategy.generate_signals` for one instrument.  The
constituent-strategy calls are modelled by their outcomes — `Except`
for a raised exception — and the two `find_atm_options` lookups by their
results. -/

/-- The collection loop: each strategy's call is wrapped in
`try/except`; a raised exception is logged and skipped, and an empty
list is not stored (`if signals:`). -/
def collectStrategySignals :
    List (String × Except String (List CandidateSignal)) →
    List (String × List CandidateSignal)
  | [] => []
  | (_, Except.error _) :: rest => collectStrategySignals rest
  | (name, Except.ok sigs) :: rest =>
      if sigs.isEmpty then collectStrategySignals rest
      else (name, sigs) :: collectStrategySignals rest

/-- The grouping loop: all collected signals of one `SignalType`. -/
def bucketOf (t : SignalType)
    (collected : List (String × List CandidateSignal)) :
    List (String × CandidateSignal) :=
  collected.flatMap fun p =>
    (p.2.filter fun s => s.signalType = t).map fun s => (p.1, s)

/-- Source: `avg_confidence = sum(confidences) / len(signals)`. -/
def avgConfidence (bucket : List (String × CandidateSignal)) : ℚ :=
  (bucket.map fun p => p.2.confidenceScore).sum / bucket.length

/-- Building the combined signal: target/stop are means of the
contributing candidates' values, with fixed-percentage fallbacks. -/
def mkEnsembleSignal (t : SignalType) (bucket : List (String × CandidateSignal))
    (conf currentPrice tFallback sFallback : ℚ) (leg : OptionLeg) :
    GeneratedSignal :=
  let targets := bucket.filterMap fun p => p.2.targetPrice
  let stops := bucket.filterMap fun p => p.2.stopLoss
  { signalType := t
    confidenceScore := conf
    targetPrice :=
      if targets.isEmpty then currentPrice * tFallback
      else targets.sum / targets.length
    stopLoss :=
      if stops.isEmpty then currentPrice * sFallback
      else stops.sum / stops.length
    optionId := leg.optionId }

/-- Source: `EnsembleStrategy.generate_signals` for one instrument, given the
constituent strategies' outcomes and the two ATM-option lookup results.
Mirrors the control flow, including the `return all_signals` early exit
when a qualifying bucket finds no ATM option. -/
def ensembleGenerate (minConfidence : ℚ) (minStrategies : ℕ)
    (currentPrice : ℚ) (atmCall atmPut : Option OptionLeg)
    (results : List (String × Except String (List CandidateSignal))) :
    List GeneratedSignal :=
  let collected := collectStrategySignals results
  let callSignals := bucketOf SignalType.longCall collected
  let putSignals := bucketOf SignalType.longPut collected
  let putPhase : List GeneratedSignal → List GeneratedSignal := fun acc =>
    if putSignals.length ≥ minStrategies ∧
        avgConfidence putSignals ≥ minConfidence then
      match atmPut with
      | none => acc
      | some leg =>
          acc ++ [mkEnsembleSignal SignalType.longPut putSignals
            (avgConfidence putSignals) currentPrice (19/20) (103/100) leg]
    else acc
  if callSignals.length ≥ minStrategies ∧
      avgConfidence callSignals ≥ minConfidence then
    match atmCall with
    | none => []
    | some leg =>
        putPhase [mkEnsembleSignal SignalType.longCall callSignals
          (avgConfidence callSignals) currentPrice (21/20) (97/100) leg]
  else putPhase []

/-- Source: `WeightedEnsembleStrategy.strategy_weights` (`.get(name, 0.5)`). -/
def strategyWeight : String → ℚ
  | "rsi" => 7/10
  | "macd" => 4/5
  | "bollinger" => 3/5
  | "momentum" => 7/10
  | "earnings" => 9/10
  | "valuation" => 4/5
  | "analyst" => 7/10
  | "iv_percentile" => 4/5
  | "iv_skew" => 7/10
  | "vol_surface" => 3/5
  | _ => 1/2

/-- Source: `WeightedEnsembleStrategy.source_weights` (`.get(source, 0.5)`). -/
def sourceWeight : SignalSource → ℚ
  | SignalSource.technical => 7/10
  | SignalSource.fundamental => 9/10
  | SignalSource.volatility => 4/5
  | SignalSource.momentum => 7/10
  | SignalSource.ensemble => 0
  | _ => 1/2

/-- Source: `combined_weight = (strategy_weight + source_weight) / 2`. -/
def combinedWeight (name : String) (src : SignalSource) : ℚ :=
  (strategyWeight name + sourceWeight src) / 2

/-- Source: `WeightedEnsembleStrategy.calculate_weighted_confidence`. -/
def calculate_weighted_confidence
    (bucket : List (String × CandidateSignal)) : ℚ :=
  if bucket.isEmpty then 0
  else
    let totalWeight :=
      (bucket.map fun p => combinedWeight p.1 p.2.signalSource).sum
    let weightedSum :=
      (bucket.map fun p =>
        p.2.confidenceScore * combinedWeight p.1 p.2.signalSource).sum
    if totalWeight > 0 then weightedSum / totalWeight else 0

/-- Source: `WeightedEnsembleStrategy.generate_signals`: same control flow as the
simple ensemble with the weighted confidence. -/
def weightedEnsembleGenerate (minConfidence : ℚ) (minStrategies : ℕ)
    (currentPrice : ℚ) (atmCall atmPut : Option OptionLeg)
    (results : List (String × Except String (List CandidateSignal))) :
    List GeneratedSignal :=
  let collected := collectStrategySignals results
  let callSignals := bucketOf SignalType.longCall collected
  let putSignals := bucketOf SignalType.longPut collected
  let putPhase : List GeneratedSignal → List GeneratedSignal := fun acc =>
    if putSignals.length ≥ minStrategies ∧
        calculate_weighted_confidence putSignals ≥ minConfidence then
      match atmPut with
      | none => acc
      | some leg =>
          acc ++ [mkEnsembleSignal SignalType.longPut putSignals
            (calculate_weighted_confidence putSignals) currentPrice
            (19/20) (103/100) leg]
    else acc
  if callSignals.length ≥ minStrategies ∧
      calculate_weighted_confidence callSignals ≥ minConfidence then
    match atmCall with
    | none => []
    | some leg =>
        putPhase [mkEnsembleSignal SignalType.longCall callSignals
          (calculate_weighted_confidence callSignals) currentPrice
          (21/20) (97/100) leg]
  else putPhase []

/-! ## Earnings-event strategy (`fundamental_strategies.py`) -/

/-- Source: `EarningsStrategy.calculate_earnings_surprise_trend` applied to the
chronologically ordered (oldest first) non-null surprise percentages. -/
def surpriseTrend (surprises : List ℚ) : ℚ :=
  if surprises.length < 2 then 0
  else
    let previous := surprises.dropLast
    let trend :=
      (surprises.getLast?.getD 0 - previous.sum / previous.length) / 100
    max (-1) (min 1 trend)

/-- The looked-up state one `EarningsStrategy.generate_signals` call
reads: instrument price, days until the scheduled earnings date,
historical surprises (oldest first, nulls dropped), the most recent past
surprise, and the two ATM-option lookup results. -/
structure EarningsEnv where
  currentPrice : Option ℚ
  daysUntilEarnings : Option ℤ
  surprises : List ℚ
  mostRecentSurprise : Option ℚ
  atmCall : Option OptionLeg
  atmPut : Option OptionLeg
  deriving DecidableEq, Repr

/-- Source: `EarningsStrategy.generate_signals` with window parameters
`days_before` / `days_after` (defaults 5 and 2). -/
def earningsGenerate (daysBefore daysAfter : ℤ) (env : EarningsEnv) :
    List GeneratedSignal :=
  match env.currentPrice with
  | none => []
  | some price =>
    match env.daysUntilEarnings with
    | none => []
    | some d =>
      let trend := surpriseTrend env.surprises
      if 0 < d ∧ d ≤ daysBefore then
        if trend > 1/5 then
          match env.atmCall with
          | none => []
          | some leg =>
              [{ signalType := SignalType.longCall
                 confidenceScore := 3/5 + trend * (3/10)
                 targetPrice := price * (107/100)
                 stopLoss := price * (19/20)
                 optionId := leg.optionId }]
        else if trend < -(1/5) then
          match env.atmPut with
          | none => []
          | some leg =>
              [{ signalType := SignalType.longPut
                 confidenceScore := 3/5 + |trend| * (3/10)
                 targetPrice := price * (93/100)
                 stopLoss := price * (21/20)
                 optionId := leg.optionId }]
        else []
      else if -daysAfter ≤ d ∧ d ≤ 0 then
        match env.mostRecentSurprise with
        | none => []
        | some s =>
          if s > 10 then
            match env.atmCall with
            | none => []
            | some leg =>
                [{ signalType := SignalType.longCall
                   confidenceScore := 7/10 + min s 30 / 100
                   targetPrice := price * (27/25)
                   stopLoss := price * (24/25)
                   optionId := leg.optionId }]
          else if s < -10 then
            match env.atmPut with
            | none => []
            | some leg =>
                [{ signalType := SignalType.longPut
                   confidenceScore := 7/10 + min |s| 30 / 100
                   targetPrice := price * (23/25)
                   stopLoss := price * (26/25)
                   optionId := leg.optionId }]
          else []
      else []

/-! ## Properties of the position sizer -/

/-- A sizing call with comfortable headroom: portfolio $100,000, option
price $2.50, confidence 0.85, 70% per-stock cap, nothing allocated yet. -/
def sizingOkInput : SizingInput :=
  ⟨10, 100000, 70, 0, 85/100, 5/2, 1, 1⟩

/-- A sizing call whose headroom ($10,000) is positive but below the
minimum floor ($33,000): portfolio $100,000, 10% per-stock cap, option
price $100, confidence 0.8, neutral adjustments. -/
def sizingCexInput : SizingInput :=
  ⟨10, 100000, 10, 0, 8/10, 100, 1, 1⟩

lemma pytrunc_nonneg_eq (q : ℚ) (z : ℤ) (h0 : 0 ≤ q)
    (h1 : (z:ℚ) ≤ q) (h2 : q < z + 1) : pytrunc q = z := by
  rw [pytrunc, if_pos h0]
  exact Int.floor_eq_iff.mpr ⟨h1, h2⟩

lemma minPositionSize_pos (i : SizingInput) : 0 < minPositionSize i :=
  lt_of_lt_of_le (by norm_num) (le_max_left _ _)

lemma contractValue_pos (i : SizingInput) (h : 0 < i.optionPrice) :
    0 < contractValue i :=
  mul_pos h (by norm_num)

lemma minContracts_pos (i : SizingInput) (h : 0 < i.optionPrice) :
    0 < minContracts i :=
  Int.ceil_pos.mpr (div_pos (minPositionSize_pos i) (contractValue_pos i h))

lemma minPositionSize_le_minContracts_mul (i : SizingInput)
    (h : 0 < i.optionPrice) :
    minPositionSize i ≤ (minContracts i : ℚ) * contractValue i := by
  have hcv := contractValue_pos i h
  have h1 : minPositionSize i / contractValue i ≤ (minContracts i : ℚ) :=
    Int.le_ceil _
  calc minPositionSize i
      = minPositionSize i / contractValue i * contractValue i := by
        field_simp
    _ ≤ (minContracts i : ℚ) * contractValue i :=
        mul_le_mul_of_nonneg_right h1 hcv.le

lemma minContracts_le_finalContracts (i : SizingInput) :
    minContracts i ≤ finalContracts i :=
  le_max_left _ _

/-- C1: for a sizing call (lookups succeeded) whose allocation headroom
is at least the minimum position floor `max($33,000, 33% of portfolio)`,
the call succeeds and its non-zero contract count satisfies
`contracts * contract_value ≥ minimum floor`. -/
theorem sizing_nonzero_meets_min_floor (i : SizingInput)
    (hop : 0 < i.optionPrice)
    (hhead : minPositionSize i ≤ availableAllocation i) :
    ∃ r, calculate_position_size i = SizingOutcome.ok r ∧
      r.contracts ≠ 0 ∧
      minPositionSize i ≤ (r.contracts : ℚ) * contractValue i := by
  have hpos : 0 < availableAllocation i :=
    lt_of_lt_of_le (minPositionSize_pos i) hhead
  refine ⟨⟨finalContracts i, minContracts i,
    (finalContracts i : ℚ) * contractValue i⟩, ?_, ?_, ?_⟩
  · unfold calculate_position_size
    rw [if_neg (not_le.mpr hpos)]
  · have h1 := minContracts_pos i hop
    have h2 := minContracts_le_finalContracts i
    simp only []
    omega
  · have h3 : (minContracts i : ℚ) ≤ (finalContracts i : ℚ) :=
      Int.cast_le.mpr (minContracts_le_finalContracts i)
    calc minPositionSize i
        ≤ (minContracts i : ℚ) * contractValue i :=
          minPositionSize_le_minContracts_mul i hop
      _ ≤ (finalContracts i : ℚ) * contractValue i :=
          mul_le_mul_of_nonneg_right h3 (contractValue_pos i hop).le

/-- Witness for C1 at the comfortable-headroom inputs. -/
theorem sizing_nonzero_meets_min_floor_witness :
    ∃ r, calculate_position_size sizingOkInput = SizingOutcome.ok r ∧
      r.contracts ≠ 0 ∧
      minPositionSize sizingOkInput ≤
        (r.contracts : ℚ) * contractValue sizingOkInput :=
  sizing_nonzero_meets_min_floor _ (by norm_num [sizingOkInput])
    (by norm_num [minPositionSize, availableAllocation, sizingOkInput])

lemma sizingCex_contractValue : contractValue sizingCexInput = 10000 := by
  norm_num [contractValue, sizingCexInput]

lemma sizingCex_minPositionSize : minPositionSize sizingCexInput = 33000 := by
  norm_num [minPositionSize, sizingCexInput]

lemma sizingCex_availableAllocation :
    availableAllocation sizingCexInput = 10000 := by
  norm_num [availableAllocation, sizingCexInput]

lemma sizingCex_minContracts : minContracts sizingCexInput = 4 := by
  unfold minContracts
  rw [sizingCex_contractValue, sizingCex_minPositionSize, Int.ceil_eq_iff]
  norm_num

lemma sizingCex_scaledContracts : scaledContracts sizingCexInput = 1 := by
  unfold scaledContracts
  rw [sizingCex_minContracts, sizingCex_contractValue,
    show maxScaling sizingCexInput = 3/2 by norm_num [maxScaling, sizingCexInput],
    show adjustedRisk sizingCexInput = 13000 by
      norm_num [adjustedRisk, sizingCexInput],
    show (((4:ℤ):ℚ)) * (3/2) = 6 by norm_num,
    show (13000:ℚ) / 10000 = 13/10 by norm_num,
    pytrunc_nonneg_eq 6 6 (by norm_num) (by norm_num) (by norm_num),
    pytrunc_nonneg_eq (13/10) 1 (by norm_num) (by norm_num) (by norm_num)]
  decide

lemma sizingCex_clampedContracts : clampedContracts sizingCexInput = 1 := by
  unfold clampedContracts
  rw [baseContracts, sizingCex_minContracts, sizingCex_scaledContracts,
    sizingCex_contractValue, sizingCex_availableAllocation,
    if_pos (by norm_num),
    show (10000:ℚ) / 10000 = 1 by norm_num,
    pytrunc_nonneg_eq 1 1 (by norm_num) (by norm_num) (by norm_num)]

lemma sizingCex_finalContracts : finalContracts sizingCexInput = 4 := by
  unfold finalContracts
  rw [flooredContracts, sizingCex_clampedContracts, sizingCex_contractValue,
    sizingCex_minPositionSize, sizingCex_availableAllocation,
    if_neg (by norm_num), sizingCex_minContracts,
    show sizingCexInput.fundamentalAdjustment *
        sizingCexInput.correlationAdjustment = 1 by norm_num [sizingCexInput],
    show (((1:ℤ):ℚ)) * 1 = 1 by norm_num,
    pytrunc_nonneg_eq 1 1 (by norm_num) (by norm_num) (by norm_num)]
  decide

lemma sizingCex_eval :
    calculate_position_size sizingCexInput = SizingOutcome.ok ⟨4, 4, 40000⟩ := by
  unfold calculate_position_size
  rw [if_neg (by rw [sizingCex_availableAllocation]; norm_num)]
  rw [sizingCex_finalContracts, sizingCex_minContracts,
    sizingCex_contractValue]
  norm_num

/-- C2 counterexample: with portfolio $100,000, a 10% per-stock
allocation cap and option price $100, headroom ($10,000) is positive but
strictly below the minimum floor ($33,000), yet the call does not fail:
it returns 4 contracts ($40,000). -/
theorem sizing_headroom_below_floor_not_exhausted :
    0 < availableAllocation sizingCexInput ∧
    availableAllocation sizingCexInput < minPositionSize sizingCexInput ∧
    calculate_position_size sizingCexInput =
      SizingOutcome.ok ⟨4, 4, 40000⟩ := by
  rw [sizingCex_availableAllocation, sizingCex_minPositionSize]
  exact ⟨by norm_num, by norm_num, sizingCex_eval⟩

/-- C2 amended: the call fails with the allocation-exhausted error
exactly when headroom is non-positive; for any positive headroom —
including headroom strictly below the minimum floor — it succeeds and
returns at least `min_contracts` contracts. -/
theorem sizing_error_iff_headroom_nonpositive (i : SizingInput) :
    (availableAllocation i ≤ 0 →
      calculate_position_size i = SizingOutcome.allocationExhausted) ∧
    (0 < availableAllocation i →
      ∃ r, calculate_position_size i = SizingOutcome.ok r ∧
        minContracts i ≤ r.contracts) := by
  constructor
  · intro h
    unfold calculate_position_size
    rw [if_pos h]
  · intro h
    refine ⟨⟨finalContracts i, minContracts i,
      (finalContracts i : ℚ) * contractValue i⟩, ?_, ?_⟩
    · unfold calculate_position_size
      rw [if_neg (not_le.mpr h)]
    · exact minContracts_le_finalContracts i

/-- Witness for the amended C2 at the sub-floor-headroom inputs. -/
theorem sizing_error_iff_headroom_nonpositive_witness :
    ∃ r, calculate_position_size sizingCexInput = SizingOutcome.ok r ∧
      minContracts sizingCexInput ≤ r.contracts :=
  (sizing_error_iff_headroom_nonpositive _).2
    (by rw [sizingCex_availableAllocation]; norm_num)

/-- C3 counterexample: a successful sizing call (headroom $10,000) whose
final contract count (4 contracts, $40,000) exceeds the allocation
headroom, because the minimum-floor restoration and the
fundamental/correlation adjustments are applied after the clamp. -/
theorem sizing_final_exceeds_headroom :
    calculate_position_size sizingCexInput = SizingOutcome.ok ⟨4, 4, 40000⟩ ∧
    availableAllocation sizingCexInput <
      (4 : ℚ) * contractValue sizingCexInput := by
  refine ⟨sizingCex_eval, ?_⟩
  rw [sizingCex_availableAllocation, sizingCex_contractValue]
  norm_num

/-- C3 amended: the headroom clamp holds for the intermediate contract
count right after the allocation-clamp step — before the minimum-floor
restoration and the fundamental/correlation adjustments, which are
applied afterwards without re-clamping. -/
theorem sizing_clamped_within_headroom (i : SizingInput)
    (hop : 0 < i.optionPrice) (h : 0 < availableAllocation i) :
    (clampedContracts i : ℚ) * contractValue i ≤ availableAllocation i := by
  have hcv := contractValue_pos i hop
  unfold clampedContracts
  split_ifs with hgt
  · have hq : (0:ℚ) ≤ availableAllocation i / contractValue i :=
      (div_pos h hcv).le
    rw [pytrunc, if_pos hq]
    have hfl : (⌊availableAllocation i / contractValue i⌋ : ℚ) ≤
        availableAllocation i / contractValue i := Int.floor_le _
    calc (⌊availableAllocation i / contractValue i⌋ : ℚ) * contractValue i
        ≤ availableAllocation i / contractValue i * contractValue i :=
          mul_le_mul_of_nonneg_right hfl hcv.le
      _ = availableAllocation i := by field_simp
  · exact le_of_not_lt hgt

/-- Witness for the amended C3 at concrete inputs. -/
theorem sizing_clamped_within_headroom_witness :
    (clampedContracts sizingOkInput : ℚ) * contractValue sizingOkInput ≤
      availableAllocation sizingOkInput :=
  sizing_clamped_within_headroom _ (by norm_num [sizingOkInput])
    (by norm_num [availableAllocation, sizingOkInput])

/-! ## Properties of the partial profit-taking ladder -/

lemma ladderLoop_fire_le (all rest : List (ℚ × ℚ)) (total profit pct : ℚ)
    (h : ladderLoop all rest total profit = some pct) : pct ≤ 1 - total := by
  induction rest with
  | nil => simp [ladderLoop] at h
  | cons t rest ih =>
      rw [ladderLoop] at h
      split_ifs at h with h1 h2
      · have := Option.some.inj h
        subst this
        exact min_le_right _ _
      · exact ih h
      · exact ih h

lemma ladderStepTotal_le_one (total profit : ℚ) (h : total ≤ 1) :
    ladderStepTotal total profit ≤ 1 := by
  unfold ladderStepTotal implement_partial_profit_taking
  cases hcall : ladderLoop ladderThresholds ladderThresholds total profit with
  | none => simpa using h
  | some pct =>
      have hle := ladderLoop_fire_le _ _ _ _ _ hcall
      simp only [Option.getD_some]
      linarith

lemma ladderRun_le_one (start : ℚ) (profits : List ℚ) (h : start ≤ 1) :
    ladderRun start profits ≤ 1 := by
  induction profits generalizing start with
  | nil => simpa [ladderRun] using h
  | cons p ps ih =>
      rw [ladderRun, List.foldl_cons]
      exact ih _ (ladderStepTotal_le_one _ _ h)

lemma ladderLoop_none_of_released (all rest : List (ℚ × ℚ))
    (total profit : ℚ)
    (h : ∀ t ∈ rest, t.1 ≤ profit → targetTotalPct all t.1 ≤ total) :
    ladderLoop all rest total profit = none := by
  induction rest with
  | nil => rfl
  | cons t rest ih =>
      rw [ladderLoop]
      have hc : ¬(profit ≥ t.1 ∧ total < targetTotalPct all t.1) := by
        rintro ⟨hc1, hc2⟩
        exact absurd (h t (by simp) hc1) (not_le.mpr hc2)
      rw [if_neg hc]
      exact ih fun t' ht' => h t' (by simp [ht'])

/-- C4: starting from any ledger whose cumulative `percentage_closed` is
at most 1.0, every sequence of `implement_partial_profit_taking` calls
keeps it at most 1.0; and a call at a profit level all of whose
triggered thresholds are already fully released holds (closes nothing),
so repeating a call at a previously-exhausted profit level is a no-op. -/
theorem ladder_cumulative_bound_and_idempotent :
    (∀ start : ℚ, ∀ profits : List ℚ,
      start ≤ 1 → ladderRun start profits ≤ 1) ∧
    (∀ totalTaken profit : ℚ,
      (∀ t ∈ ladderThresholds, t.1 ≤ profit →
        targetTotalPct ladderThresholds t.1 ≤ totalTaken) →
      implement_partial_profit_taking totalTaken profit = none) :=
  ⟨fun s ps h => ladderRun_le_one s ps h,
   fun total profit h => ladderLoop_none_of_released _ _ total profit h⟩

/-- Witness for C4: the Scenario-D call sequence (22%, 37%, back to 22%)
from an empty ledger stays within 100%, and a call at 22% profit with
the 20%-threshold tranche already released holds. -/
theorem ladder_cumulative_bound_and_idempotent_witness :
    ladderRun 0 [22/100, 37/100, 22/100] ≤ 1 ∧
    implement_partial_profit_taking (1/2) (22/100) = none := by
  constructor
  · exact ladder_cumulative_bound_and_idempotent.1 0 _ (by norm_num)
  · refine ladder_cumulative_bound_and_idempotent.2 (1/2) (22/100) ?_
    intro t ht hle
    simp only [ladderThresholds, List.mem_cons, List.not_mem_nil, or_false] at ht
    rcases ht with rfl | rfl | rfl <;>
      simp only [targetTotalPct, ladderThresholds] <;>
      norm_num at hle ⊢

/-! ## Properties of the trailing stop -/

/-- C5: for a fixed position (fixed entry price and initial stop) and
consistent inputs (`current_profit_pct = (current_price − entry)/entry`),
the adjusted stop-loss returned by `calculate_dynamic_take_profit` is
monotonically non-decreasing as profit (equivalently price) increases. -/
theorem adjusted_stop_monotone (entry initialStop p₁ p₂ : ℚ)
    (hentry : 0 < entry) (hp : p₁ ≤ p₂) :
    adjustedStopLoss entry (entry * (1 + p₁)) initialStop p₁ ≤
    adjustedStopLoss entry (entry * (1 + p₂)) initialStop p₂ := by
  rcases le_or_lt p₁ (3/20) with hb1 | hb1
  · have hL : trailingStop entry (entry * (1 + p₁)) initialStop p₁ =
        initialStop := by
      unfold trailingStop
      rw [if_neg (by linarith), if_neg (by linarith)]
    unfold adjustedStopLoss
    rw [hL, max_self]
    exact le_max_left _ _
  · have hep : entry * p₁ ≤ entry * p₂ :=
      mul_le_mul_of_nonneg_left hp hentry.le
    have key : trailingStop entry (entry * (1 + p₁)) initialStop p₁ ≤
        trailingStop entry (entry * (1 + p₂)) initialStop p₂ := by
      unfold trailingStop
      rcases lt_or_le (3/10 : ℚ) p₁ with ha1 | ha1
      · rw [if_pos (by linarith : p₁ > 3/10), if_pos (by linarith : p₂ > 3/10)]
        nlinarith
      · rw [if_neg (by linarith : ¬ p₁ > 3/10),
          if_pos (by linarith : p₁ > 3/20)]
        rcases lt_or_le (3/10 : ℚ) p₂ with ha2 | ha2
        · rw [if_pos (by linarith : p₂ > 3/10)]
          have hpos : 0 ≤ entry * p₂ := by nlinarith
          nlinarith
        · rw [if_neg (by linarith : ¬ p₂ > 3/10),
            if_pos (by linarith : p₂ > 3/20)]
          nlinarith
    unfold adjustedStopLoss
    exact max_le_max le_rfl key

/-- Witness for C5: entry $100, initial stop $80, profit rising from
10% to 40%. -/
theorem adjusted_stop_monotone_witness :
    adjustedStopLoss 100 (100 * (1 + 1/10)) 80 (1/10) ≤
    adjustedStopLoss 100 (100 * (1 + 2/5)) 80 (2/5) :=
  adjusted_stop_monotone 100 80 (1/10) (2/5) (by norm_num) (by norm_num)

/-! ## Properties of the ensemble confidence combination -/

lemma list_sum_le_length_mul (l : List ℚ) (hi : ℚ)
    (h : ∀ x ∈ l, x ≤ hi) : l.sum ≤ (l.length : ℚ) * hi := by
  induction l with
  | nil => simp
  | cons a l ih =>
      simp only [List.sum_cons, List.length_cons]
      have h1 := h a (List.mem_cons_self a l)
      have h2 := ih fun x hx => h x (List.mem_cons_of_mem _ hx)
      push_cast
      nlinarith

lemma length_mul_le_list_sum (l : List ℚ) (lo : ℚ)
    (h : ∀ x ∈ l, lo ≤ x) : (l.length : ℚ) * lo ≤ l.sum := by
  induction l with
  | nil => simp
  | cons a l ih =>
      simp only [List.sum_cons, List.length_cons]
      have h1 := h a (List.mem_cons_self a l)
      have h2 := ih fun x hx => h x (List.mem_cons_of_mem _ hx)
      push_cast
      nlinarith

lemma strategyWeight_ge_half (n : String) : 1/2 ≤ strategyWeight n := by
  unfold strategyWeight
  split <;> norm_num

lemma sourceWeight_nonneg (s : SignalSource) : 0 ≤ sourceWeight s := by
  cases s <;> norm_num [sourceWeight]

lemma combinedWeight_ge_quarter (n : String) (s : SignalSource) :
    1/4 ≤ combinedWeight n s := by
  have h1 := strategyWeight_ge_half n
  have h2 := sourceWeight_nonneg s
  unfold combinedWeight
  linarith

lemma weighted_sum_le (l : List (String × CandidateSignal)) (hi : ℚ)
    (h : ∀ p ∈ l, p.2.confidenceScore ≤ hi) :
    (l.map fun p =>
      p.2.confidenceScore * combinedWeight p.1 p.2.signalSource).sum ≤
    hi * (l.map fun p => combinedWeight p.1 p.2.signalSource).sum := by
  induction l with
  | nil => simp
  | cons a l ih =>
      simp only [List.map_cons, List.sum_cons]
      have h1 := h a (List.mem_cons_self a l)
      have h2 := ih fun p hp => h p (List.mem_cons_of_mem _ hp)
      have h3 := combinedWeight_ge_quarter a.1 a.2.signalSource
      nlinarith

lemma le_weighted_sum (l : List (String × CandidateSignal)) (lo : ℚ)
    (h : ∀ p ∈ l, lo ≤ p.2.confidenceScore) :
    lo * (l.map fun p => combinedWeight p.1 p.2.signalSource).sum ≤
    (l.map fun p =>
      p.2.confidenceScore * combinedWeight p.1 p.2.signalSource).sum := by
  induction l with
  | nil => simp
  | cons a l ih =>
      simp only [List.map_cons, List.sum_cons]
      have h1 := h a (List.mem_cons_self a l)
      have h2 := ih fun p hp => h p (List.mem_cons_of_mem _ hp)
      have h3 := combinedWeight_ge_quarter a.1 a.2.signalSource
      nlinarith

lemma total_weight_pos (b : String × CandidateSignal)
    (rest : List (String × CandidateSignal)) :
    0 < ((b :: rest).map fun p => combinedWeight p.1 p.2.signalSource).sum := by
  have hlen : ((b :: rest).length : ℚ) * (1/4) ≤
      ((b :: rest).map fun p => combinedWeight p.1 p.2.signalSource).sum := by
    have := length_mul_le_list_sum
      ((b :: rest).map fun p => combinedWeight p.1 p.2.signalSource) (1/4)
      (by
        intro x hx
        rw [List.mem_map] at hx
        obtain ⟨p, _, rfl⟩ := hx
        exact combinedWeight_ge_quarter p.1 p.2.signalSource)
    simpa using this
  have hpos : (0:ℚ) < ((b :: rest).length : ℚ) := by
    rw [List.length_cons]
    exact_mod_cast Nat.succ_pos rest.length
  nlinarith

/-- C6: for any non-empty directional bucket, the combined confidence —
arithmetic mean in `EnsembleStrategy`, weighted mean with weights
`(strategy_weight + source_weight)/2` in `WeightedEnsembleStrategy` —
lies between any lower and upper bound of the contributing candidates'
confidence scores, in particular between their minimum and maximum. -/
theorem ensemble_confidence_convex
    (b : String × CandidateSignal) (rest : List (String × CandidateSignal))
    (lo hi : ℚ)
    (hlo : ∀ p ∈ b :: rest, lo ≤ p.2.confidenceScore)
    (hhi : ∀ p ∈ b :: rest, p.2.confidenceScore ≤ hi) :
    (lo ≤ avgConfidence (b :: rest) ∧ avgConfidence (b :: rest) ≤ hi) ∧
    (lo ≤ calculate_weighted_confidence (b :: rest) ∧
      calculate_weighted_confidence (b :: rest) ≤ hi) := by
  have hlen : (0:ℚ) < ((b :: rest).length : ℚ) := by
    rw [List.length_cons]
    exact_mod_cast Nat.succ_pos rest.length
  constructor
  · constructor
    · have hsum := length_mul_le_list_sum
        ((b :: rest).map fun p => p.2.confidenceScore) lo
        (by
          intro x hx
          rw [List.mem_map] at hx
          obtain ⟨p, hp, rfl⟩ := hx
          exact hlo p hp)
      unfold avgConfidence
      rw [le_div_iff₀ hlen]
      simpa [mul_comm] using hsum
    · have hsum := list_sum_le_length_mul
        ((b :: rest).map fun p => p.2.confidenceScore) hi
        (by
          intro x hx
          rw [List.mem_map] at hx
          obtain ⟨p, hp, rfl⟩ := hx
          exact hhi p hp)
      unfold avgConfidence
      rw [div_le_iff₀ hlen]
      simpa [mul_comm] using hsum
  · have hW := total_weight_pos b rest
    unfold calculate_weighted_confidence
    rw [if_neg (by simp), if_pos hW]
    constructor
    · rw [le_div_iff₀ hW]
      simpa [mul_comm] using le_weighted_sum (b :: rest) lo hlo
    · rw [div_le_iff₀ hW]
      simpa [mul_comm] using weighted_sum_le (b :: rest) hi hhi

/-- Witness for C6: two bullish candidates at confidence 0.7 and 0.8
are combined within [0.7, 0.8] by both policies. -/
theorem ensemble_confidence_convex_witness :
    ((7:ℚ)/10 ≤
        avgConfidence [("rsi", ⟨SignalType.longCall, SignalSource.technical,
          7/10, none, none⟩), ("macd", ⟨SignalType.longCall,
          SignalSource.technical, 8/10, none, none⟩)] ∧
      avgConfidence [("rsi", ⟨SignalType.longCall, SignalSource.technical,
          7/10, none, none⟩), ("macd", ⟨SignalType.longCall,
          SignalSource.technical, 8/10, none, none⟩)] ≤ 8/10) ∧
    ((7:ℚ)/10 ≤
        calculate_weighted_confidence [("rsi", ⟨SignalType.longCall,
          SignalSource.technical, 7/10, none, none⟩), ("macd",
          ⟨SignalType.longCall, SignalSource.technical, 8/10, none, none⟩)] ∧
      calculate_weighted_confidence [("rsi", ⟨SignalType.longCall,
          SignalSource.technical, 7/10, none, none⟩), ("macd",
          ⟨SignalType.longCall, SignalSource.technical, 8/10, none, none⟩)] ≤
        8/10) :=
  ensemble_confidence_convex _ _ (7/10) (8/10)
    (by
      intro p hp
      simp only [List.mem_cons, List.not_mem_nil, or_false] at hp
      rcases hp with rfl | rfl <;> norm_num)
    (by
      intro p hp
      simp only [List.mem_cons, List.not_mem_nil, or_false] at hp
      rcases hp with rfl | rfl <;> norm_num)

/-! ## Properties of the ensemble control flow -/

lemma ensembleGenerate_call_blocked (minConf : ℚ) (minStrats : ℕ)
    (price : ℚ) (atmPut : Option OptionLeg)
    (results : List (String × Except String (List CandidateSignal)))
    (hq : (bucketOf SignalType.longCall
        (collectStrategySignals results)).length ≥ minStrats ∧
      avgConfidence (bucketOf SignalType.longCall
        (collectStrategySignals results)) ≥ minConf) :
    ensembleGenerate minConf minStrats price none atmPut results = [] := by
  simp only [ensembleGenerate]
  rw [if_pos hq]

lemma weightedEnsembleGenerate_call_blocked (minConf : ℚ) (minStrats : ℕ)
    (price : ℚ) (atmPut : Option OptionLeg)
    (results : List (String × Except String (List CandidateSignal)))
    (hq : (bucketOf SignalType.longCall
        (collectStrategySignals results)).length ≥ minStrats ∧
      calculate_weighted_confidence (bucketOf SignalType.longCall
        (collectStrategySignals results)) ≥ minConf) :
    weightedEnsembleGenerate minConf minStrats price none atmPut results = [] := by
  simp only [weightedEnsembleGenerate]
  rw [if_pos hq]

lemma ensembleGenerate_mem (minConf : ℚ) (minStrats : ℕ) (price : ℚ)
    (atmCall atmPut : Option OptionLeg)
    (results : List (String × Except String (List CandidateSignal)))
    (s : GeneratedSignal)
    (hs : s ∈ ensembleGenerate minConf minStrats price atmCall atmPut results) :
    (s.signalType = SignalType.longCall ∧
      minStrats ≤ (bucketOf SignalType.longCall
        (collectStrategySignals results)).length) ∨
    (s.signalType = SignalType.longPut ∧
      minStrats ≤ (bucketOf SignalType.longPut
        (collectStrategySignals results)).length) := by
  by_cases hA : (bucketOf SignalType.longCall
      (collectStrategySignals results)).length ≥ minStrats ∧
    avgConfidence (bucketOf SignalType.longCall
      (collectStrategySignals results)) ≥ minConf
  · by_cases hB : (bucketOf SignalType.longPut
        (collectStrategySignals results)).length ≥ minStrats ∧
      avgConfidence (bucketOf SignalType.longPut
        (collectStrategySignals results)) ≥ minConf
    · simp only [ensembleGenerate, if_pos hA, if_pos hB] at hs
      cases atmCall with
      | none => simp at hs
      | some legC =>
          cases atmPut with
          | none =>
              simp only [List.mem_singleton] at hs
              subst hs
              exact Or.inl ⟨rfl, hA.1⟩
          | some legP =>
              simp only [List.mem_append, List.mem_singleton] at hs
              rcases hs with hs | hs <;> subst hs
              · exact Or.inl ⟨rfl, hA.1⟩
              · exact Or.inr ⟨rfl, hB.1⟩
    · simp only [ensembleGenerate, if_pos hA, if_neg hB] at hs
      cases atmCall with
      | none => simp at hs
      | some legC =>
          simp only [List.mem_singleton] at hs
          subst hs
          exact Or.inl ⟨rfl, hA.1⟩
  · by_cases hB : (bucketOf SignalType.longPut
        (collectStrategySignals results)).length ≥ minStrats ∧
      avgConfidence (bucketOf SignalType.longPut
        (collectStrategySignals results)) ≥ minConf
    · simp only [ensembleGenerate, if_neg hA, if_pos hB] at hs
      cases atmPut with
      | none => simp at hs
      | some legP =>
          simp only [List.nil_append, List.mem_singleton] at hs
          subst hs
          exact Or.inr ⟨rfl, hB.1⟩
    · simp only [ensembleGenerate, if_neg hA, if_neg hB] at hs
      simp at hs

/-- Scenario C input: a single strategy emitting one bullish candidate
at confidence 0.9, no concurring strategy. -/
def soloCallResults : List (String × Except String (List CandidateSignal)) :=
  [("rsi", Except.ok [⟨SignalType.longCall, SignalSource.technical,
    9/10, none, none⟩])]

/-- C7: a directional bucket with fewer candidate signals than
`min_strategies` emits no combined signal for that direction; in
particular one lone `LONG_CALL` candidate at confidence 0.9 (quorum 2,
`min_confidence` 0.6) produces no ensemble signal at all. -/
theorem ensemble_quorum_required (minConf : ℚ) (minStrats : ℕ) (price : ℚ)
    (atmCall atmPut : Option OptionLeg)
    (results : List (String × Except String (List CandidateSignal))) :
    ((bucketOf SignalType.longCall
        (collectStrategySignals results)).length < minStrats →
      ∀ s ∈ ensembleGenerate minConf minStrats price atmCall atmPut results,
        s.signalType ≠ SignalType.longCall) ∧
    ((bucketOf SignalType.longPut
        (collectStrategySignals results)).length < minStrats →
      ∀ s ∈ ensembleGenerate minConf minStrats price atmCall atmPut results,
        s.signalType ≠ SignalType.longPut) ∧
    ensembleGenerate (3/5) 2 100 (some ⟨1, 100⟩) (some ⟨2, 100⟩)
      soloCallResults = [] := by
  refine ⟨?_, ?_, ?_⟩
  · intro hlt s hs
    rcases ensembleGenerate_mem minConf minStrats price atmCall atmPut
        results s hs with ⟨ht, hq⟩ | ⟨ht, hq⟩
    · exact absurd hq (not_le.mpr hlt)
    · rw [ht]
      decide
  · intro hlt s hs
    rcases ensembleGenerate_mem minConf minStrats price atmCall atmPut
        results s hs with ⟨ht, hq⟩ | ⟨ht, hq⟩
    · rw [ht]
      decide
    · exact absurd hq (not_le.mpr hlt)
  · simp only [ensembleGenerate]
    rw [if_neg (by rintro ⟨h, -⟩; exact absurd h (by decide)),
      if_neg (by rintro ⟨h, -⟩; exact absurd h (by decide))]

/-- Witness for C7: the Scenario C conclusion at its concrete inputs. -/
theorem ensemble_quorum_required_witness :
    ensembleGenerate (3/5) 2 100 (some ⟨1, 100⟩) (some ⟨2, 100⟩)
      soloCallResults = [] :=
  (ensemble_quorum_required (3/5) 2 100 (some ⟨1, 100⟩) (some ⟨2, 100⟩)
    soloCallResults).2.2

lemma collectStrategySignals_error_eq_ok_nil
    (pre post : List (String × Except String (List CandidateSignal)))
    (name e : String) :
    collectStrategySignals (pre ++ (name, Except.error e) :: post) =
    collectStrategySignals (pre ++ (name, Except.ok []) :: post) := by
  induction pre with
  | nil =>
      rw [List.nil_append, List.nil_append]
      rfl
  | cons a pre ih =>
      rcases a with ⟨n, r⟩
      cases r with
      | error e' =>
          simp only [List.cons_append]
          rw [show ∀ rest, collectStrategySignals ((n, Except.error e') :: rest) =
              collectStrategySignals rest from fun rest => rfl,
            show ∀ rest, collectStrategySignals ((n, Except.error e') :: rest) =
              collectStrategySignals rest from fun rest => rfl]
          exact ih
      | ok sigs =>
          simp only [List.cons_append]
          rw [show ∀ rest, collectStrategySignals ((n, Except.ok sigs) :: rest) =
              if sigs.isEmpty then collectStrategySignals rest
              else (n, sigs) :: collectStrategySignals rest from fun rest => rfl,
            show ∀ rest, collectStrategySignals ((n, Except.ok sigs) :: rest) =
              if sigs.isEmpty then collectStrategySignals rest
              else (n, sigs) :: collectStrategySignals rest from fun rest => rfl,
            ih]

/-- C9: a constituent strategy that raises is skipped and isolated: the
ensemble cycle (simple and weighted) produces exactly the signals it
would produce had that strategy returned no candidates, with every other
strategy still contributing. -/
theorem ensemble_strategy_failure_isolated (minConf : ℚ) (minStrats : ℕ)
    (price : ℚ) (atmCall atmPut : Option OptionLeg)
    (pre post : List (String × Except String (List CandidateSignal)))
    (name e : String) :
    ensembleGenerate minConf minStrats price atmCall atmPut
        (pre ++ (name, Except.error e) :: post) =
      ensembleGenerate minConf minStrats price atmCall atmPut
        (pre ++ (name, Except.ok []) :: post) ∧
    weightedEnsembleGenerate minConf minStrats price atmCall atmPut
        (pre ++ (name, Except.error e) :: post) =
      weightedEnsembleGenerate minConf minStrats price atmCall atmPut
        (pre ++ (name, Except.ok []) :: post) := by
  have hc := collectStrategySignals_error_eq_ok_nil pre post name e
  constructor
  · simp only [ensembleGenerate, hc]
  · simp only [weightedEnsembleGenerate, hc]

/-- A cycle in which both buckets meet quorum 2 and confidence 0.6
(call bucket at 0.7/0.8, put bucket at 0.9/0.9). -/
def dualBucketResults : List (String × Except String (List CandidateSignal)) :=
  [("rsi", Except.ok [⟨SignalType.longCall, SignalSource.technical,
      7/10, none, none⟩,
    ⟨SignalType.longPut, SignalSource.technical, 9/10, none, none⟩]),
   ("macd", Except.ok [⟨SignalType.longCall, SignalSource.technical,
      8/10, none, none⟩,
    ⟨SignalType.longPut, SignalSource.volatility, 9/10, none, none⟩])]

/-- C10: when the call bucket meets quorum and `min_confidence` but the
call-side ATM lookup returns nothing, `generate_signals` (simple and
weighted) returns immediately with no signals, so a qualifying put
bucket is never evaluated; the concrete cycle `dualBucketResults`
exhibits this with a put bucket meeting quorum 2 at confidence 0.9. -/
theorem ensemble_call_lookup_failure_blocks_put (minConf : ℚ)
    (minStrats : ℕ) (price : ℚ) (atmPut : Option OptionLeg)
    (results : List (String × Except String (List CandidateSignal))) :
    (((bucketOf SignalType.longCall
          (collectStrategySignals results)).length ≥ minStrats ∧
        avgConfidence (bucketOf SignalType.longCall
          (collectStrategySignals results)) ≥ minConf) →
      ensembleGenerate minConf minStrats price none atmPut results = []) ∧
    (((bucketOf SignalType.longCall
          (collectStrategySignals results)).length ≥ minStrats ∧
        calculate_weighted_confidence (bucketOf SignalType.longCall
          (collectStrategySignals results)) ≥ minConf) →
      weightedEnsembleGenerate minConf minStrats price none atmPut
        results = []) ∧
    ((bucketOf SignalType.longPut
        (collectStrategySignals dualBucketResults)).length ≥ 2 ∧
      avgConfidence (bucketOf SignalType.longPut
        (collectStrategySignals dualBucketResults)) ≥ 3/5 ∧
      ensembleGenerate (3/5) 2 100 none (some ⟨2, 100⟩)
        dualBucketResults = []) := by
  refine ⟨?_, ?_, ?_, ?_, ?_⟩
  · exact ensembleGenerate_call_blocked minConf minStrats price atmPut results
  · exact weightedEnsembleGenerate_call_blocked minConf minStrats price
      atmPut results
  · decide
  · have hb : bucketOf SignalType.longPut
        (collectStrategySignals dualBucketResults) =
        [("rsi", ⟨SignalType.longPut, SignalSource.technical,
          9/10, none, none⟩),
         ("macd", ⟨SignalType.longPut, SignalSource.volatility,
          9/10, none, none⟩)] := rfl
    rw [hb]
    simp only [avgConfidence, List.map_cons, List.map_nil, List.sum_cons,
      List.sum_nil, List.length_cons, List.length_nil]
    norm_num
  · refine ensembleGenerate_call_blocked (3/5) 2 100 (some ⟨2, 100⟩)
      dualBucketResults ⟨by decide, ?_⟩
    have hb : bucketOf SignalType.longCall
        (collectStrategySignals dualBucketResults) =
        [("rsi", ⟨SignalType.longCall, SignalSource.technical,
          7/10, none, none⟩),
         ("macd", ⟨SignalType.longCall, SignalSource.technical,
          8/10, none, none⟩)] := rfl
    rw [hb]
    simp only [avgConfidence, List.map_cons, List.map_nil, List.sum_cons,
      List.sum_nil, List.length_cons, List.length_nil]
    norm_num

/-- Witness for C10: the simple-ensemble implication discharged at the
concrete dual-bucket cycle. -/
theorem ensemble_call_lookup_failure_blocks_put_witness :
    ensembleGenerate (3/5) 2 100 none (some ⟨2, 100⟩)
      dualBucketResults = [] := by
  refine (ensemble_call_lookup_failure_blocks_put (3/5) 2 100
    (some ⟨2, 100⟩) dualBucketResults).1 ⟨by decide, ?_⟩
  have hb : bucketOf SignalType.longCall
      (collectStrategySignals dualBucketResults) =
      [("rsi", ⟨SignalType.longCall, SignalSource.technical,
        7/10, none, none⟩),
       ("macd", ⟨SignalType.longCall, SignalSource.technical,
        8/10, none, none⟩)] := rfl
  rw [hb]
  simp only [avgConfidence, List.map_cons, List.map_nil, List.sum_cons,
    List.sum_nil, List.length_cons, List.length_nil]
  norm_num

/-! ## Properties of the earnings-event strategy -/

lemma surpriseTrend_eval : surpriseTrend [0, 50] = 1/2 := by
  rw [surpriseTrend, if_neg (by decide)]
  norm_num

lemma earningsGenerate_outside_windows (daysBefore daysAfter : ℤ)
    (price : ℚ) (d : ℤ) (surprises : List ℚ) (recent : Option ℚ)
    (atmC atmP : Option OptionLeg)
    (h1 : ¬(0 < d ∧ d ≤ daysBefore)) (h2 : ¬(-daysAfter ≤ d ∧ d ≤ 0)) :
    earningsGenerate daysBefore daysAfter
      ⟨some price, some d, surprises, recent, atmC, atmP⟩ = [] := by
  simp only [earningsGenerate]
  rw [if_neg h1, if_neg h2]

lemma earningsGenerate_pre_bullish (daysBefore daysAfter : ℤ) (price : ℚ)
    (d : ℤ) (surprises : List ℚ) (recent : Option ℚ)
    (atmP : Option OptionLeg) (leg : OptionLeg)
    (h1 : 0 < d ∧ d ≤ daysBefore) (ht : surpriseTrend surprises > 1/5) :
    ∃ sig, earningsGenerate daysBefore daysAfter
        ⟨some price, some d, surprises, recent, some leg, atmP⟩ = [sig] ∧
      sig.signalType = SignalType.longCall ∧
      sig.confidenceScore = 3/5 + surpriseTrend surprises * (3/10) := by
  simp only [earningsGenerate]
  rw [if_pos h1, if_pos ht]
  exact ⟨_, rfl, rfl, rfl⟩

lemma earningsGenerate_pre_bullish_no_option (daysBefore daysAfter : ℤ)
    (price : ℚ) (d : ℤ) (surprises : List ℚ) (recent : Option ℚ)
    (atmP : Option OptionLeg)
    (h1 : 0 < d ∧ d ≤ daysBefore) (ht : surpriseTrend surprises > 1/5) :
    earningsGenerate daysBefore daysAfter
      ⟨some price, some d, surprises, recent, none, atmP⟩ = [] := by
  simp only [earningsGenerate]
  rw [if_pos h1, if_pos ht]

lemma earningsGenerate_pre_bearish (daysBefore daysAfter : ℤ) (price : ℚ)
    (d : ℤ) (surprises : List ℚ) (recent : Option ℚ)
    (atmC : Option OptionLeg) (leg : OptionLeg)
    (h1 : 0 < d ∧ d ≤ daysBefore)
    (ht : surpriseTrend surprises < -(1/5)) :
    ∃ sig, earningsGenerate daysBefore daysAfter
        ⟨some price, some d, surprises, recent, atmC, some leg⟩ = [sig] ∧
      sig.signalType = SignalType.longPut ∧
      sig.confidenceScore = 3/5 + |surpriseTrend surprises| * (3/10) := by
  simp only [earningsGenerate]
  rw [if_pos h1, if_neg (by linarith : ¬surpriseTrend surprises > 1/5),
    if_pos ht]
  exact ⟨_, rfl, rfl, rfl⟩

lemma earningsGenerate_pre_bearish_no_option (daysBefore daysAfter : ℤ)
    (price : ℚ) (d : ℤ) (surprises : List ℚ) (recent : Option ℚ)
    (atmC : Option OptionLeg)
    (h1 : 0 < d ∧ d ≤ daysBefore)
    (ht : surpriseTrend surprises < -(1/5)) :
    earningsGenerate daysBefore daysAfter
      ⟨some price, some d, surprises, recent, atmC, none⟩ = [] := by
  simp only [earningsGenerate]
  rw [if_pos h1, if_neg (by linarith : ¬surpriseTrend surprises > 1/5),
    if_pos ht]

lemma earningsGenerate_pre_neutral (daysBefore daysAfter : ℤ) (price : ℚ)
    (d : ℤ) (surprises : List ℚ) (recent : Option ℚ)
    (atmC atmP : Option OptionLeg)
    (h1 : 0 < d ∧ d ≤ daysBefore)
    (ht : ¬surpriseTrend surprises > 1/5)
    (ht2 : ¬surpriseTrend surprises < -(1/5)) :
    earningsGenerate daysBefore daysAfter
      ⟨some price, some d, surprises, recent, atmC, atmP⟩ = [] := by
  simp only [earningsGenerate]
  rw [if_pos h1, if_neg ht, if_neg ht2]

lemma earningsGenerate_post_none (daysBefore daysAfter : ℤ) (price : ℚ)
    (d : ℤ) (surprises : List ℚ) (atmC atmP : Option OptionLeg)
    (h1 : ¬(0 < d ∧ d ≤ daysBefore)) (h2 : -daysAfter ≤ d ∧ d ≤ 0) :
    earningsGenerate daysBefore daysAfter
      ⟨some price, some d, surprises, none, atmC, atmP⟩ = [] := by
  simp only [earningsGenerate]
  rw [if_neg h1, if_pos h2]

lemma earningsGenerate_post_bullish (daysBefore daysAfter : ℤ)
    (price : ℚ) (d : ℤ) (surprises : List ℚ) (s : ℚ)
    (atmP : Option OptionLeg) (leg : OptionLeg)
    (h1 : ¬(0 < d ∧ d ≤ daysBefore)) (h2 : -daysAfter ≤ d ∧ d ≤ 0)
    (hs : s > 10) :
    ∃ sig, earningsGenerate daysBefore daysAfter
        ⟨some price, some d, surprises, some s, some leg, atmP⟩ = [sig] ∧
      sig.signalType = SignalType.longCall ∧
      sig.confidenceScore = 7/10 + min s 30 / 100 := by
  simp only [earningsGenerate]
  rw [if_neg h1, if_pos h2]
  split
  all_goals first
    | exact ⟨_, rfl, rfl, rfl⟩
    | (exfalso; linarith)

lemma earningsGenerate_post_bullish_no_option (daysBefore daysAfter : ℤ)
    (price : ℚ) (d : ℤ) (surprises : List ℚ) (s : ℚ)
    (atmP : Option OptionLeg)
    (h1 : ¬(0 < d ∧ d ≤ daysBefore)) (h2 : -daysAfter ≤ d ∧ d ≤ 0)
    (hs : s > 10) :
    earningsGenerate daysBefore daysAfter
      ⟨some price, some d, surprises, some s, none, atmP⟩ = [] := by
  simp only [earningsGenerate]
  rw [if_neg h1, if_pos h2]
  split
  all_goals first
    | rfl
    | (exfalso; linarith)

lemma earningsGenerate_post_bearish (daysBefore daysAfter : ℤ)
    (price : ℚ) (d : ℤ) (surprises : List ℚ) (s : ℚ)
    (atmC : Option OptionLeg) (leg : OptionLeg)
    (h1 : ¬(0 < d ∧ d ≤ daysBefore)) (h2 : -daysAfter ≤ d ∧ d ≤ 0)
    (hs : s < -10) :
    ∃ sig, earningsGenerate daysBefore daysAfter
        ⟨some price, some d, surprises, some s, atmC, some leg⟩ = [sig] ∧
      sig.signalType = SignalType.longPut ∧
      sig.confidenceScore = 7/10 + min |s| 30 / 100 := by
  simp only [earningsGenerate]
  rw [if_neg h1, if_pos h2]
  split
  all_goals first
    | exact ⟨_, rfl, rfl, rfl⟩
    | (exfalso; linarith)

lemma earningsGenerate_post_bearish_no_option (daysBefore daysAfter : ℤ)
    (price : ℚ) (d : ℤ) (surprises : List ℚ) (s : ℚ)
    (atmC : Option OptionLeg)
    (h1 : ¬(0 < d ∧ d ≤ daysBefore)) (h2 : -daysAfter ≤ d ∧ d ≤ 0)
    (hs : s < -10) :
    earningsGenerate daysBefore daysAfter
      ⟨some price, some d, surprises, some s, atmC, none⟩ = [] := by
  simp only [earningsGenerate]
  rw [if_neg h1, if_pos h2]
  split
  all_goals first
    | rfl
    | (exfalso; linarith)

lemma earningsGenerate_post_neutral (daysBefore daysAfter : ℤ)
    (price : ℚ) (d : ℤ) (surprises : List ℚ) (s : ℚ)
    (atmC atmP : Option OptionLeg)
    (h1 : ¬(0 < d ∧ d ≤ daysBefore)) (h2 : -daysAfter ≤ d ∧ d ≤ 0)
    (hs1 : ¬s > 10) (hs2 : ¬s < -10) :
    earningsGenerate daysBefore daysAfter
      ⟨some price, some d, surprises, some s, atmC, atmP⟩ = [] := by
  simp only [earningsGenerate]
  rw [if_neg h1, if_pos h2]
  split
  all_goals first
    | rfl
    | (exfalso; linarith)

/-- C8 counterexample: with the default windows (`days_before = 5`,
`days_after = 2`), earnings 10 days ahead — inside the claimed `[3, 14]`
pre-earnings window — with a strongly positive surprise trend (0.5) and
both ATM options available produce no signal at all. -/
theorem earnings_pre_window_not_3_14 :
    ((3:ℤ) ≤ 10 ∧ (10:ℤ) ≤ 14) ∧
    surpriseTrend [0, 50] > 1/5 ∧
    earningsGenerate 5 2
      ⟨some 100, some 10, [0, 50], none, some ⟨1, 100⟩, some ⟨2, 100⟩⟩ =
      [] := by
  refine ⟨⟨by decide, by decide⟩, ?_, ?_⟩
  · rw [surpriseTrend_eval]
    norm_num
  · exact earningsGenerate_outside_windows 5 2 100 10 [0, 50] none
      (some ⟨1, 100⟩) (some ⟨2, 100⟩) (by decide) (by decide)

/-- C8 amended: the pre-earnings window is `0 < days_until ≤ days_before`
(default 5, not `[3, 14]`) and the post-earnings window is
`-days_after ≤ days_until ≤ 0` (default 2 days after); inside the pre
window a signal is emitted exactly when the surprise trend exceeds ±0.2
and the matching ATM option exists, inside the post window exactly when
the most recent surprise exceeds ±10% and the matching ATM option
exists, and outside both windows nothing is emitted. -/
theorem earnings_signal_window_characterization (daysBefore daysAfter : ℤ)
    (price : ℚ) (d : ℤ) (surprises : List ℚ) :
    (∀ recent atmC atmP, ¬(0 < d ∧ d ≤ daysBefore) →
      ¬(-daysAfter ≤ d ∧ d ≤ 0) →
      earningsGenerate daysBefore daysAfter
        ⟨some price, some d, surprises, recent, atmC, atmP⟩ = []) ∧
    (∀ recent atmP leg, (0 < d ∧ d ≤ daysBefore) →
      surpriseTrend surprises > 1/5 →
      ∃ sig, earningsGenerate daysBefore daysAfter
          ⟨some price, some d, surprises, recent, some leg, atmP⟩ =
          [sig] ∧
        sig.signalType = SignalType.longCall ∧
        sig.confidenceScore = 3/5 + surpriseTrend surprises * (3/10)) ∧
    (∀ recent atmP, (0 < d ∧ d ≤ daysBefore) →
      surpriseTrend surprises > 1/5 →
      earningsGenerate daysBefore daysAfter
        ⟨some price, some d, surprises, recent, none, atmP⟩ = []) ∧
    (∀ recent atmC leg, (0 < d ∧ d ≤ daysBefore) →
      surpriseTrend surprises < -(1/5) →
      ∃ sig, earningsGenerate daysBefore daysAfter
          ⟨some price, some d, surprises, recent, atmC, some leg⟩ =
          [sig] ∧
        sig.signalType = SignalType.longPut ∧
        sig.confidenceScore = 3/5 + |surpriseTrend surprises| * (3/10)) ∧
    (∀ recent atmC, (0 < d ∧ d ≤ daysBefore) →
      surpriseTrend surprises < -(1/5) →
      earningsGenerate daysBefore daysAfter
        ⟨some price, some d, surprises, recent, atmC, none⟩ = []) ∧
    (∀ recent atmC atmP, (0 < d ∧ d ≤ daysBefore) →
      ¬surpriseTrend surprises > 1/5 →
      ¬surpriseTrend surprises < -(1/5) →
      earningsGenerate daysBefore daysAfter
        ⟨some price, some d, surprises, recent, atmC, atmP⟩ = []) ∧
    (∀ atmC atmP, ¬(0 < d ∧ d ≤ daysBefore) → (-daysAfter ≤ d ∧ d ≤ 0) →
      earningsGenerate daysBefore daysAfter
        ⟨some price, some d, surprises, none, atmC, atmP⟩ = []) ∧
    (∀ s atmP leg, ¬(0 < d ∧ d ≤ daysBefore) →
      (-daysAfter ≤ d ∧ d ≤ 0) → s > 10 →
      ∃ sig, earningsGenerate daysBefore daysAfter
          ⟨some price, some d, surprises, some s, some leg, atmP⟩ =
          [sig] ∧
        sig.signalType = SignalType.longCall ∧
        sig.confidenceScore = 7/10 + min s 30 / 100) ∧
    (∀ s atmP, ¬(0 < d ∧ d ≤ daysBefore) → (-daysAfter ≤ d ∧ d ≤ 0) →
      s > 10 →
      earningsGenerate daysBefore daysAfter
        ⟨some price, some d, surprises, some s, none, atmP⟩ = []) ∧
    (∀ s atmC leg, ¬(0 < d ∧ d ≤ daysBefore) →
      (-daysAfter ≤ d ∧ d ≤ 0) → s < -10 →
      ∃ sig, earningsGenerate daysBefore daysAfter
          ⟨some price, some d, surprises, some s, atmC, some leg⟩ =
          [sig] ∧
        sig.signalType = SignalType.longPut ∧
        sig.confidenceScore = 7/10 + min |s| 30 / 100) ∧
    (∀ s atmC, ¬(0 < d ∧ d ≤ daysBefore) → (-daysAfter ≤ d ∧ d ≤ 0) →
      s < -10 →
      earningsGenerate daysBefore daysAfter
        ⟨some price, some d, surprises, some s, atmC, none⟩ = []) ∧
    (∀ s atmC atmP, ¬(0 < d ∧ d ≤ daysBefore) →
      (-daysAfter ≤ d ∧ d ≤ 0) → ¬s > 10 → ¬s < -10 →
      earningsGenerate daysBefore daysAfter
        ⟨some price, some d, surprises, some s, atmC, atmP⟩ = []) :=
  ⟨fun recent atmC atmP h1 h2 =>
      earningsGenerate_outside_windows daysBefore daysAfter price d
        surprises recent atmC atmP h1 h2,
    fun recent atmP leg h1 ht =>
      earningsGenerate_pre_bullish daysBefore daysAfter price d surprises
        recent atmP leg h1 ht,
    fun recent atmP h1 ht =>
      earningsGenerate_pre_bullish_no_option daysBefore daysAfter price d
        surprises recent atmP h1 ht,
    fun recent atmC leg h1 ht =>
      earningsGenerate_pre_bearish daysBefore daysAfter price d surprises
        recent atmC leg h1 ht,
    fun recent atmC h1 ht =>
      earningsGenerate_pre_bearish_no_option daysBefore daysAfter price d
        surprises recent atmC h1 ht,
    fun recent atmC atmP h1 ht ht2 =>
      earningsGenerate_pre_neutral daysBefore daysAfter price d surprises
        recent atmC atmP h1 ht ht2,
    fun atmC atmP h1 h2 =>
      earningsGenerate_post_none daysBefore daysAfter price d surprises
        atmC atmP h1 h2,
    fun s atmP leg h1 h2 hs =>
      earningsGenerate_post_bullish daysBefore daysAfter price d surprises
        s atmP leg h1 h2 hs,
    fun s atmP h1 h2 hs =>
      earningsGenerate_post_bullish_no_option daysBefore daysAfter price d
        surprises s atmP h1 h2 hs,
    fun s atmC leg h1 h2 hs =>
      earningsGenerate_post_bearish daysBefore daysAfter price d surprises
        s atmC leg h1 h2 hs,
    fun s atmC h1 h2 hs =>
      earningsGenerate_post_bearish_no_option daysBefore daysAfter price d
        surprises s atmC h1 h2 hs,
    fun s atmC atmP h1 h2 hs1 hs2 =>
      earningsGenerate_post_neutral daysBefore daysAfter price d surprises
        s atmC atmP h1 h2 hs1 hs2⟩

/-- Witness for the amended C8: earnings 4 days ahead with trend 0.5 and
an ATM call available emit a bullish pre-earnings signal. -/
theorem earnings_signal_window_characterization_witness :
    ∃ sig, earningsGenerate 5 2
        ⟨some 100, some 4, [0, 50], none, some ⟨1, 100⟩, some ⟨2, 100⟩⟩ =
        [sig] ∧
      sig.signalType = SignalType.longCall ∧
      sig.confidenceScore = 3/5 + surpriseTrend [0, 50] * (3/10) :=
  (earnings_signal_window_characterization 5 2 100 4 [0, 50]).2.1
    none (some ⟨2, 100⟩) ⟨1, 100⟩ ⟨by decide, by decide⟩
    (by rw [surpriseTrend_eval]; norm_num)

end Mag7
